import Mathlib

/-!
Verification of the ferrumc core against its specification.

This file gives a shallow embedding, in Lean 4, of the parts of the
repository that the spec's claims are about:

* the generational-index entity allocator and the world's
  `delete_entity` (`src/ecs/world.rs`),
* the chunk persistence layer over a key-value store
  (`src/database/chunks.rs`),
* the keep-alive sender and receiver/reaper passes
  (`src/net/systems/keep_alive_system.rs`),
* the status request handler (`src/net/packets/incoming/status.rs`).

Machine integers (`u64`, `i32`) are modelled as `Nat`/`Int`; overflow of
the 64-bit entity counters (reachable only after 2^64 operations on one
id) is not modelled.  `Vec::push`/`Vec::pop` on the free list are
modelled by `List.concat` / `List.getLast?` + `List.dropLast`, keeping
the LIFO discipline of the source.
-/

/-! ## Entity allocator (`src/ecs/world.rs`) -/

/-- `Entity`: pair of id and generation (`world.rs` lines 63-67). -/
structure Entity where
  id : Nat
  generation : Nat
deriving DecidableEq, Repr

/-- The two deallocation failures of `src/ecs/error.rs`, each carrying the
offending id, as raised by `EntityAllocator::deallocate`. -/
inductive DeallocationErrorType where
  | EntityNotFound (id : Nat)
  | InvalidGeneration (id : Nat)
deriving DecidableEq, Repr

/-- `EntityAllocator` (`world.rs` lines 97-102): next fresh id, the
generation of each id, and the LIFO pool of freed ids. -/
structure EntityAllocator where
  next_id : Nat
  generations : List Nat
  free_ids : List Nat
deriving DecidableEq, Repr

/-- `EntityAllocator::allocate_entity` (`world.rs` lines 128-139): pop a
free id if available and pair it with its current generation; otherwise
take `next_id`, growing `generations` with a fresh generation 0. -/
def EntityAllocator.allocate_entity (a : EntityAllocator) :
    Entity × EntityAllocator :=
  match a.free_ids.getLast? with
  | some id =>
      (⟨id, a.generations.getD id 0⟩, { a with free_ids := a.free_ids.dropLast })
  | none =>
      let id := a.next_id
      let generations :=
        if a.generations.length ≤ id then a.generations.concat 0 else a.generations
      (⟨id, 0⟩, { a with next_id := id + 1, generations := generations })

/-- `EntityAllocator::deallocate` (`world.rs` lines 142-161): reject ids
out of bounds (`EntityNotFound`) or with a stale generation
(`InvalidGeneration`); otherwise bump the generation and push the id to
the free pool.  The updated allocator is returned next to the result; on
an error it is unchanged. -/
def EntityAllocator.deallocate (a : EntityAllocator) (entity : Entity) :
    Except DeallocationErrorType Unit × EntityAllocator :=
  if a.generations.length ≤ entity.id then
    (.error (.EntityNotFound entity.id), a)
  else if a.generations.getD entity.id 0 ≠ entity.generation then
    (.error (.InvalidGeneration entity.id), a)
  else
    (.ok (),
      { a with
        generations := a.generations.set entity.id (a.generations.getD entity.id 0 + 1)
        free_ids := a.free_ids.concat entity.id })

/-- Modelled from the spec: `ComponentStorage` lives in
`src/ecs/components.rs`, which is not among the sources.  Per the spec's
data model it is a "mapping from component type → column; each column is
a sparse mapping from entity id → component value".  We model the
storage as a list of columns, each column an association list from
entity id to an (opaque, here `Nat`-coded) component value. -/
abbrev ComponentStorage := List (List (Nat × Nat))

/-- Modelled from the spec: "Removing all components for an entity
clears its slot in every column."  Slots are addressed by the entity's
id (the source converts `&Entity` to a `usize` index via its id). -/
def ComponentStorage.remove_all (cs : ComponentStorage) (entity : Entity) :
    ComponentStorage :=
  cs.map (fun column => column.filter (fun slot => slot.1 != entity.id))

/-- `World` (`world.rs` lines 8-11), restricted to the two fields the
claims are about. -/
structure World where
  entity_allocator : EntityAllocator
  component_storage : ComponentStorage
deriving DecidableEq

/-- `World::delete_entity` (`world.rs` lines 25-28): note the source
removes all components *before* validating the handle in `deallocate`. -/
def World.delete_entity (w : World) (entity : Entity) :
    Except DeallocationErrorType Unit × World :=
  let cs := w.component_storage.remove_all entity
  let r := w.entity_allocator.deallocate entity
  (r.1, ⟨r.2, cs⟩)

/-- The allocator states reachable from `EntityAllocator::new`:
`next_id` tracks the length of `generations`, and every pooled free id
is in bounds. -/
abbrev allocatorInvariant (a : EntityAllocator) : Prop :=
  a.next_id = a.generations.length ∧ ∀ i ∈ a.free_ids, i < a.generations.length

/-! ### List helpers -/

theorem list_getD_set_eq (l : List Nat) (i v d : Nat) (h : i < l.length) :
    (l.set i v).getD i d = v := by
  induction l generalizing i with
  | nil => simp at h
  | cons x xs ih =>
    cases i with
    | zero => rfl
    | succ n =>
      show (xs.set n v).getD n d = v
      exact ih n (by simpa using h)

theorem list_getD_concat_len (l : List Nat) (x d : Nat) :
    (l.concat x).getD l.length d = x := by
  induction l with
  | nil => rfl
  | cons y ys ih => simp [ih]

/-- After `remove_all`, no column holds a slot for the removed id. -/
theorem remove_all_clears (cs : ComponentStorage) (e : Entity) :
    ∀ column ∈ cs.remove_all e, ∀ slot ∈ column, slot.1 ≠ e.id := by
  intro column hcol slot hslot
  simp only [ComponentStorage.remove_all, List.mem_map] at hcol
  obtain ⟨col₀, _, rfl⟩ := hcol
  have := List.of_mem_filter hslot
  simpa using this

/-- `deallocate` on an out-of-bounds id: `EntityNotFound`, allocator
untouched. -/
theorem deallocate_out_of_bounds (a : EntityAllocator) (e : Entity)
    (h : a.generations.length ≤ e.id) :
    a.deallocate e = (.error (.EntityNotFound e.id), a) := by
  simp [EntityAllocator.deallocate, h]

/-- `deallocate` on a stale generation: `InvalidGeneration`, allocator
untouched. -/
theorem deallocate_stale (a : EntityAllocator) (e : Entity)
    (h1 : ¬ a.generations.length ≤ e.id)
    (h2 : a.generations.getD e.id 0 ≠ e.generation) :
    a.deallocate e = (.error (.InvalidGeneration e.id), a) := by
  unfold EntityAllocator.deallocate
  rw [if_neg h1, if_pos h2]

/-- `deallocate` on a live handle bumps the id's generation and pools
the id. -/
theorem deallocate_ok (a : EntityAllocator) (e : Entity)
    (h1 : ¬ a.generations.length ≤ e.id)
    (h2 : a.generations.getD e.id 0 = e.generation) :
    a.deallocate e
      = (.ok (),
          { a with
            generations := a.generations.set e.id (a.generations.getD e.id 0 + 1)
            free_ids := a.free_ids.concat e.id }) := by
  unfold EntityAllocator.deallocate
  rw [if_neg h1, if_neg (not_not_intro h2)]

/-! ## Claims C1 and C3: entity deletion and id reuse -/

/-- C1 (counterexample): the claim says "on either error the component
storage and allocator are left unchanged", but `World::delete_entity`
calls `remove_all` *before* validating the handle.  In the state reached
by: allocate (0,0), attach a component, deallocate, re-allocate (0,1),
attach a component — deleting the stale handle (0,0) returns
`InvalidGeneration` yet clears the live entity's component. -/
theorem delete_entity_error_mutates_storage :
    (World.delete_entity ⟨⟨1, [1], []⟩, [[(0, 7)]]⟩ ⟨0, 0⟩).1
        = .error (.InvalidGeneration 0) ∧
      (World.delete_entity ⟨⟨1, [1], []⟩, [[(0, 7)]]⟩ ⟨0, 0⟩).2.component_storage
        ≠ [[(0, 7)]] :=
  ⟨rfl, by decide⟩

/-- C1 (amended): `delete_entity(e)` returns `EntityNotFound` iff
`e.id ≥ generations.len()`, `InvalidGeneration` iff `e.id` is in bounds
but `generations[e.id] ≠ e.generation`; on success it frees the id
(pushes it to the free pool and bumps its generation); on either error
the *allocator* is unchanged — but the component storage has `e.id`'s
slots cleared in every column regardless of the outcome, because
`remove_all` runs before validation. -/
theorem delete_entity_spec (w : World) (e : Entity) :
    ((w.delete_entity e).1 = .error (.EntityNotFound e.id)
        ↔ w.entity_allocator.generations.length ≤ e.id)
  ∧ ((w.delete_entity e).1 = .error (.InvalidGeneration e.id)
        ↔ e.id < w.entity_allocator.generations.length
          ∧ w.entity_allocator.generations.getD e.id 0 ≠ e.generation)
  ∧ ((w.delete_entity e).1 = .ok ()
        → (w.delete_entity e).2.entity_allocator.free_ids
              = w.entity_allocator.free_ids.concat e.id
          ∧ (w.delete_entity e).2.entity_allocator.generations
              = w.entity_allocator.generations.set e.id (e.generation + 1))
  ∧ ((w.delete_entity e).1 ≠ .ok ()
        → (w.delete_entity e).2.entity_allocator = w.entity_allocator)
  ∧ (w.delete_entity e).2.component_storage = w.component_storage.remove_all e
  ∧ ∀ column ∈ (w.delete_entity e).2.component_storage,
      ∀ slot ∈ column, slot.1 ≠ e.id := by
  have hclear := remove_all_clears w.component_storage e
  have hd : w.delete_entity e
      = ((w.entity_allocator.deallocate e).1,
          ⟨(w.entity_allocator.deallocate e).2,
            w.component_storage.remove_all e⟩) := rfl
  by_cases h1 : w.entity_allocator.generations.length ≤ e.id
  · rw [hd, deallocate_out_of_bounds _ _ h1]
    exact ⟨iff_of_true rfl h1,
      iff_of_false (by simp) (fun hc => absurd hc.1 (Nat.not_lt.2 h1)),
      by simp, fun _ => rfl, rfl, hclear⟩
  · by_cases h2 : w.entity_allocator.generations.getD e.id 0 = e.generation
    · rw [hd, deallocate_ok _ _ h1 h2]
      refine ⟨iff_of_false (by simp) h1,
        iff_of_false (by simp) (fun hc => hc.2 h2),
        fun _ => ⟨rfl, by rw [h2]⟩, fun hne => absurd rfl hne, rfl, hclear⟩
    · rw [hd, deallocate_stale _ _ h1 h2]
      exact ⟨iff_of_false (by simp) h1,
        iff_of_true rfl ⟨Nat.not_le.1 h1, h2⟩,
        by simp, fun _ => rfl, rfl, hclear⟩

theorem mem_of_getLast?_eq (l : List Nat) (a : Nat) (h : l.getLast? = some a) :
    a ∈ l := by
  rcases List.mem_getLast?_eq_getLast (l := l) (x := a) (by rw [h]; rfl) with ⟨hne, rfl⟩
  exact List.getLast_mem hne

/-- C3: from any reachable allocator state, allocate `e1`, deallocate
`e1`, allocate `e2`: then `e2.id = e1.id`, `e2.generation =
e1.generation + 1`, and a subsequent `delete_entity(e1)` (with any
component storage) returns `InvalidGeneration`. -/
theorem entity_id_reuse (a : EntityAllocator) (h : allocatorInvariant a) :
    ((a.allocate_entity.2.deallocate a.allocate_entity.1).1 = .ok ())
  ∧ (a.allocate_entity.2.deallocate a.allocate_entity.1).2.allocate_entity.1.id
      = a.allocate_entity.1.id
  ∧ (a.allocate_entity.2.deallocate a.allocate_entity.1).2.allocate_entity.1.generation
      = a.allocate_entity.1.generation + 1
  ∧ ∀ cs : ComponentStorage,
      (World.delete_entity
          ⟨(a.allocate_entity.2.deallocate a.allocate_entity.1).2.allocate_entity.2, cs⟩
          a.allocate_entity.1).1
        = .error (.InvalidGeneration a.allocate_entity.1.id) := by
  obtain ⟨hn, hf⟩ := h
  cases hl : a.free_ids.getLast? with
  | some f =>
      have hflt : f < a.generations.length := hf f (mem_of_getLast?_eq _ _ hl)
      have hnle : ¬ a.generations.length ≤ f := Nat.not_le.2 hflt
      have hc : (a.free_ids.dropLast.concat f).getLast? = some f := by
        rw [List.concat_eq_append]; exact List.getLast?_concat _
      have hset : (a.generations.set f (a.generations.getD f 0 + 1)).getD f 0
          = a.generations.getD f 0 + 1 :=
        list_getD_set_eq _ _ _ _ hflt
      refine ⟨?_, ?_, ?_, ?_⟩ <;>
        simp [EntityAllocator.allocate_entity, EntityAllocator.deallocate,
          World.delete_entity, hl, hc, hset, hnle, hflt,
          -List.getD_eq_getElem?_getD]
  | none =>
      have hemp : a.free_ids = [] := List.getLast?_eq_none_iff.mp hl
      have happ : ∀ x : Nat, (a.generations ++ [x]).getD a.generations.length 0 = x := by
        intro x
        have h0 := list_getD_concat_len a.generations x 0
        rw [List.concat_eq_append] at h0
        exact h0
      have hnle2 : ¬ a.generations.length + 1 ≤ a.generations.length := by omega
      refine ⟨?_, ?_, ?_, ?_⟩ <;>
        simp [EntityAllocator.allocate_entity, EntityAllocator.deallocate,
          World.delete_entity, hl, hemp, hn, happ, hnle2,
          -List.getD_eq_getElem?_getD]

/-- C3 (witness): the reuse law at the freshly created allocator. -/
theorem entity_id_reuse_witness :
    allocatorInvariant ⟨0, [], []⟩
  ∧ (((⟨0, [], []⟩ : EntityAllocator).allocate_entity.2.deallocate
        (⟨0, [], []⟩ : EntityAllocator).allocate_entity.1).1 = .ok ())
  ∧ ((⟨0, [], []⟩ : EntityAllocator).allocate_entity.2.deallocate
        (⟨0, [], []⟩ : EntityAllocator).allocate_entity.1).2.allocate_entity.1.id
      = (⟨0, [], []⟩ : EntityAllocator).allocate_entity.1.id
  ∧ ((⟨0, [], []⟩ : EntityAllocator).allocate_entity.2.deallocate
        (⟨0, [], []⟩ : EntityAllocator).allocate_entity.1).2.allocate_entity.1.generation
      = (⟨0, [], []⟩ : EntityAllocator).allocate_entity.1.generation + 1
  ∧ ∀ cs : ComponentStorage,
      (World.delete_entity
          ⟨((⟨0, [], []⟩ : EntityAllocator).allocate_entity.2.deallocate
              (⟨0, [], []⟩ : EntityAllocator).allocate_entity.1).2.allocate_entity.2, cs⟩
          (⟨0, [], []⟩ : EntityAllocator).allocate_entity.1).1
        = .error (.InvalidGeneration (⟨0, [], []⟩ : EntityAllocator).allocate_entity.1.id) :=
  ⟨⟨by decide, by decide⟩, entity_id_reuse ⟨0, [], []⟩ ⟨by decide, by decide⟩⟩

/-! ## Chunk store (`src/database/chunks.rs`) -/

/-- Modelled from the spec: the error kinds of `src/utils/error.rs`
(not among the sources) that the chunk-store signatures declare. -/
inductive DbError where
  | Io
  | Serialize
  | Deserialize
  | Generic
deriving DecidableEq, Repr

/-- Modelled from the spec: `Chunk` (`src/world/chunkformat.rs` is not
among the sources) is "the decoded world chunk record with fields
including `x_pos: i32`, `z_pos: i32`, `y_pos: i32`", the rest "treated
as an opaque serializable record"; the opaque rest is one `Int` field. -/
structure Chunk where
  x_pos : Int
  z_pos : Int
  y_pos : Int
  rest : Int
deriving DecidableEq, Repr

/-- Serialized chunk bytes (the flexbuffers buffer), as a list of
integers. -/
abbrev SerBytes := List Int

/-- Modelled from the spec: "Serialization uses a schema-less
self-describing binary encoding that round-trips any `Chunk` value"
(flexbuffers in the source).  We model the buffer as the list of the
chunk's fields. -/
def chunkSerialize (c : Chunk) : SerBytes :=
  [c.x_pos, c.z_pos, c.y_pos, c.rest]

/-- Modelled from the spec: the matching deserializer; buffers that are
not the encoding of a chunk do not parse. -/
def chunkDeserialize : SerBytes → Option Chunk
  | [x, z, y, r] => some ⟨x, z, y, r⟩
  | _ => none

/-- A sled tree: a key-value map from record keys to serialized values.
Absent keys map to `none`. -/
abbrev KvTree := String → Option SerBytes

/-- The embedded KV database: a map from tree names to trees
(`open_tree` creates an empty tree on first use, so every name denotes
a tree, initially empty). -/
abbrev Db := String → KvTree

def emptyTree : KvTree := fun _ => none

def emptyDb : Db := fun _ => emptyTree

/-- `sled::Db::open_tree`. -/
def openTree (db : Db) (name : String) : KvTree := db name

/-- `sled::Tree::insert`: store `v` under `k` (the prior value, which
sled returns, is read off the pre-state in the callers). -/
def treeInsertKV (t : KvTree) (k : String) (v : SerBytes) : KvTree :=
  fun k' => if k' = k then some v else t k'

/-- `sled::Tree::remove`: delete key `k`. -/
def treeRemoveKV (t : KvTree) (k : String) : KvTree :=
  fun k' => if k' = k then none else t k'

/-- Replace one named tree of the database. -/
def dbSetTree (db : Db) (name : String) (t : KvTree) : Db :=
  fun n => if n = name then t else db n

/-- The record key `"{x},{z}"` with decimal signed integers. -/
def chunkKey (x z : Int) : String := toString x ++ "," ++ toString z

/-- `Database::insert_chunk` (`chunks.rs` lines 27-46): serialize the
chunk and insert it under `"{x},{z}"` in tree `chunks/<dimension>`;
`Ok(true)` iff the key already existed.  All internal failures panic
(`unwrap`/`expect`), so the error channel is never used. -/
def Database.insert_chunk (db : Db) (value : Chunk) (dimension : String) :
    (Except DbError Bool) × Db :=
  let record_name := chunkKey value.x_pos value.z_pos
  let tree_name := "chunks/" ++ dimension
  let encoded := chunkSerialize value
  let tree := openTree db tree_name
  let db' := dbSetTree db tree_name (treeInsertKV tree record_name encoded)
  (match tree record_name with
   | some _ => .ok true
   | none => .ok false, db')

/-- `Database::get_chunk` (`chunks.rs` lines 63-82): read the bytes
under `"{x},{z}"` in tree `chunks/<dimension>` and deserialize them.
A buffer that does not deserialize panics (`unwrap`), modelled as
`none`; the error channel is never used. -/
def Database.get_chunk (db : Db) (x z : Int) (dimension : String) :
    Option (Except DbError (Option Chunk)) :=
  let tree_name := "chunks/" ++ dimension
  let record_name := chunkKey x z
  match openTree db tree_name record_name with
  | some bytes =>
      match chunkDeserialize bytes with
      | some chunk => some (.ok (some chunk))
      | none => none
  | none => some (.ok none)

/-- `Database::chunk_exists` (`chunks.rs` lines 99-111):
`contains_key` on the record key. -/
def Database.chunk_exists (db : Db) (x z : Int) (dimension : String) :
    Except DbError Bool :=
  .ok ((openTree db ("chunks/" ++ dimension)) (chunkKey x z)).isSome

/-- `Database::update_chunk` (`chunks.rs` lines 127-154): first remove
the record key from the tree named `"chunks"` (without dimension; the
source only logs a warning when it was absent), then insert the
serialized chunk under `"{x},{z}"` in tree `chunks/<dimension>`;
`Ok(true)` iff that key already existed there. -/
def Database.update_chunk (db : Db) (value : Chunk) (dimension : String) :
    (Except DbError Bool) × Db :=
  let record_name := chunkKey value.x_pos value.z_pos
  let encoded := chunkSerialize value
  let db1 := dbSetTree db "chunks" (treeRemoveKV (openTree db "chunks") record_name)
  let tree := openTree db1 ("chunks/" ++ dimension)
  let db2 := dbSetTree db1 ("chunks/" ++ dimension)
      (treeInsertKV tree record_name encoded)
  (match tree record_name with
   | some _ => .ok true
   | none => .ok false, db2)

/-- The integers of `a..b` (Rust's half-open range), in order. -/
def intRange (a b : Int) : List Int :=
  (List.range (b - a).toNat).map (fun i : Nat => a + (i : Int))

/-- The `(x, z)` pairs visited by `get_chunk_range`'s nested loops, in
row-major order, `x` outermost. -/
def rangePairs (start stop : Int × Int) : List (Int × Int) :=
  (intRange start.1 stop.1).flatMap
    (fun x => (intRange start.2 stop.2).map (fun z => (x, z)))

/-- The body of `get_chunk_range`'s nested loops over the remaining
`(x, z)` pairs, carrying the `results` vector: push each `get_chunk`
result; a `?` error aborts with that error, a panic inside `get_chunk`
propagates. -/
def getChunkRangeLoop (db : Db) (dimension : String) :
    List (Int × Int) → List (Option Chunk)
      → Option (Except DbError (List (Option Chunk)))
  | [], results => some (.ok results)
  | p :: ps, results =>
      match Database.get_chunk db p.1 p.2 dimension with
      | none => none
      | some (.error e) => some (.error e)
      | some (.ok r) => getChunkRangeLoop db dimension ps (results.concat r)

/-- `Database::get_chunk_range` (`chunks.rs` lines 171-202): the
sequential nested `for` loops in row-major order, `x` outermost. -/
def Database.get_chunk_range (db : Db) (start stop : Int × Int)
    (dimension : String) : Option (Except DbError (List (Option Chunk))) :=
  getChunkRangeLoop db dimension (rangePairs start stop) []

/-! ## Claims C2, C5, C10: chunk store operations -/

/-- C2: `insert_chunk` returns `Ok(false)` when the key `"{x},{z}"` was
absent from tree `chunks/<dimension>` and `Ok(true)` when it existed
(and was overwritten); after the insert, `get_chunk(c.x_pos, c.z_pos,
d)` returns exactly the inserted chunk. -/
theorem insert_then_get_chunk (db : Db) (c : Chunk) (d : String) :
    (Database.insert_chunk db c d).1
        = .ok ((openTree db ("chunks/" ++ d)) (chunkKey c.x_pos c.z_pos)).isSome
  ∧ Database.get_chunk (Database.insert_chunk db c d).2 c.x_pos c.z_pos d
        = some (.ok (some c)) := by
  constructor
  · cases h : db ("chunks/" ++ d) (chunkKey c.x_pos c.z_pos) with
    | none => simp [Database.insert_chunk, openTree, h]
    | some v => simp [Database.insert_chunk, openTree, h]
  · simp [Database.get_chunk, Database.insert_chunk, openTree, dbSetTree,
      treeInsertKV, chunkSerialize, chunkDeserialize]

/-- C5: `update_chunk(c, d)` is observably equivalent to
`insert_chunk(c, d)` on tree `chunks/<dimension>`: same return value
(`true` iff the key previously existed there), and the tree is left in
the identical state; the stray removal touches only the differently
named tree `"chunks"`. -/
theorem update_chunk_equiv_insert_chunk (db : Db) (c : Chunk) (d : String) :
    (Database.update_chunk db c d).1 = (Database.insert_chunk db c d).1
  ∧ (Database.update_chunk db c d).1
      = .ok ((openTree db ("chunks/" ++ d)) (chunkKey c.x_pos c.z_pos)).isSome
  ∧ ∀ k, openTree (Database.update_chunk db c d).2 ("chunks/" ++ d) k
      = openTree (Database.insert_chunk db c d).2 ("chunks/" ++ d) k := by
  have hne : ("chunks/" ++ d) ≠ "chunks" := by
    intro h
    have hlen := congrArg String.length h
    rw [String.length_append] at hlen
    have h7 : "chunks/".length = 7 := rfl
    have h6 : "chunks".length = 6 := rfl
    omega
  refine ⟨?_, ?_, ?_⟩
  · cases h : db ("chunks/" ++ d) (chunkKey c.x_pos c.z_pos) with
    | none =>
        simp [Database.update_chunk, Database.insert_chunk, openTree,
          dbSetTree, hne, h]
    | some v =>
        simp [Database.update_chunk, Database.insert_chunk, openTree,
          dbSetTree, hne, h]
  · cases h : db ("chunks/" ++ d) (chunkKey c.x_pos c.z_pos) with
    | none =>
        simp [Database.update_chunk, openTree, dbSetTree, hne, h]
    | some v =>
        simp [Database.update_chunk, openTree, dbSetTree, hne, h]
  · intro k
    simp [Database.update_chunk, Database.insert_chunk, openTree, dbSetTree,
      treeInsertKV, hne]

/-- C10: `insert_chunk`, `get_chunk`, `chunk_exists` and `update_chunk`
never surface an `Err`: every internal failure panics
(`unwrap`/`expect`, here the panic outcome `none` of `get_chunk`), so
the declared error channel is unreachable. -/
theorem chunk_ops_never_err (db : Db) (c : Chunk) (x z : Int) (d : String)
    (e : DbError) :
    (Database.insert_chunk db c d).1 ≠ .error e
  ∧ Database.get_chunk db x z d ≠ some (.error e)
  ∧ Database.chunk_exists db x z d ≠ .error e
  ∧ (Database.update_chunk db c d).1 ≠ .error e := by
  have hne : ("chunks/" ++ d) ≠ "chunks" := by
    intro h
    have hlen := congrArg String.length h
    rw [String.length_append] at hlen
    have h7 : "chunks/".length = 7 := rfl
    have h6 : "chunks".length = 6 := rfl
    omega
  refine ⟨?_, ?_, ?_, ?_⟩
  · cases h : db ("chunks/" ++ d) (chunkKey c.x_pos c.z_pos) with
    | none => simp [Database.insert_chunk, openTree, h]
    | some v => simp [Database.insert_chunk, openTree, h]
  · cases h : db ("chunks/" ++ d) (chunkKey x z) with
    | none => simp [Database.get_chunk, openTree, h]
    | some bytes =>
        cases hb : chunkDeserialize bytes with
        | none => simp [Database.get_chunk, openTree, h, hb]
        | some ch => simp [Database.get_chunk, openTree, h, hb]
  · simp [Database.chunk_exists]
  · cases h : db ("chunks/" ++ d) (chunkKey c.x_pos c.z_pos) with
    | none => simp [Database.update_chunk, openTree, dbSetTree, hne, h]
    | some v => simp [Database.update_chunk, openTree, dbSetTree, hne, h]

/-! ## Claim C4: `get_chunk_range` count and ordering -/

theorem intRange_length (a b : Int) : (intRange a b).length = (b - a).toNat := by
  unfold intRange
  rw [List.length_map, List.length_range]

theorem intRange_getD (a b : Int) (i : Nat) (h : i < (b - a).toNat) :
    (intRange a b).getD i 0 = a + i := by
  unfold intRange
  rw [List.getD_eq_getElem?_getD, List.getElem?_map, List.getElem?_range h]
  rfl

theorem list_getD_append_right {γ : Type} (l l' : List γ) (n : Nat) (dflt : γ) :
    (l ++ l').getD (l.length + n) dflt = l'.getD n dflt := by
  simp [List.getD_eq_getElem?_getD, List.getElem?_append_right]

/-- When every `get_chunk` in sight succeeds with `f x z`, the loop
collects exactly the successive values. -/
theorem getChunkRangeLoop_ok (db : Db) (d : String) (f : Int → Int → Option Chunk)
    (hf : ∀ x z, Database.get_chunk db x z d = some (.ok (f x z))) :
    ∀ (ps : List (Int × Int)) (acc : List (Option Chunk)),
      getChunkRangeLoop db d ps acc
        = some (.ok (acc ++ ps.map (fun p => f p.1 p.2))) := by
  intro ps
  induction ps with
  | nil => intro acc; simp [getChunkRangeLoop]
  | cons p ps ih =>
      intro acc
      simp [getChunkRangeLoop, hf p.1 p.2, ih]

/-- Row-major indexing into a flattened list of constant-length rows. -/
theorem flatMap_row_major_getD {γ : Type} (g : Int → List γ) (m : Nat)
    (hg : ∀ x, (g x).length = m) (dflt : γ) :
    ∀ (X : List Int) (i j : Nat), i < X.length → j < m →
      (X.flatMap g).getD (i * m + j) dflt = (g (X.getD i 0)).getD j dflt := by
  intro X
  induction X with
  | nil => intro i j hi _; simp at hi
  | cons x X ih =>
      intro i j hi hj
      cases i with
      | zero =>
          simp only [List.flatMap_cons, Nat.zero_mul, Nat.zero_add]
          rw [List.getD_append _ _ dflt j (by rw [hg x]; exact hj)]
          rfl
      | succ i' =>
          simp only [List.flatMap_cons]
          have hidx : (i' + 1) * m + j = (g x).length + (i' * m + j) := by
            rw [hg x]; ring
          rw [hidx, list_getD_append_right]
          exact ih i' j (by simpa using hi) hj

theorem sum_map_const_length {γ : Type} (X : List Int) (g : Int → List γ)
    (m : Nat) (hg : ∀ x, (g x).length = m) :
    (X.map (fun x => (g x).length)).sum = X.length * m := by
  induction X with
  | nil => simp
  | cons x X ih => simp [hg, ih, Nat.succ_mul]; ring

/-- C4 (counterexample): on the reversed range `((1,1),(0,0))` the loops
are empty and 0 entries are returned, while the claimed count
`(x1-x0)*(z1-z0) = (0-1)*(0-1)` is 1. -/
theorem get_chunk_range_reversed_counterexample :
    Database.get_chunk_range emptyDb (1, 1) (0, 0) "overworld" = some (.ok [])
  ∧ ((0 : Int) - 1) * ((0 : Int) - 1) = 1 :=
  ⟨rfl, by decide⟩

/-- C4 (amended): over a store whose readable values all deserialize
(`get_chunk` succeeding with `f x z`), `get_chunk_range((x0,z0),(x1,z1),d)`
returns `(x1-x0)*(z1-z0)` entries whenever `x0 ≤ x1` and `z0 ≤ z1`
(in general `(x1-x0).toNat * (z1-z0).toNat`: a reversed bound yields an
empty range, not a positive product), inclusive at the start and
exclusive at the end, in row-major order with `x` outermost: the entry
at index `i*(z1-z0)+j` is `get_chunk(x0+i, z0+j, d)`'s value. -/
theorem get_chunk_range_row_major (db : Db) (d : String) (x0 z0 x1 z1 : Int)
    (f : Int → Int → Option Chunk)
    (hf : ∀ x z, Database.get_chunk db x z d = some (.ok (f x z))) :
    ∃ l, Database.get_chunk_range db (x0, z0) (x1, z1) d = some (.ok l)
      ∧ l.length = (x1 - x0).toNat * (z1 - z0).toNat
      ∧ (x0 ≤ x1 → z0 ≤ z1 → (l.length : Int) = (x1 - x0) * (z1 - z0))
      ∧ ∀ i j, i < (x1 - x0).toNat → j < (z1 - z0).toNat →
          l.getD (i * (z1 - z0).toNat + j) none = f (x0 + i) (z0 + j) := by
  have hmap : (rangePairs (x0, z0) (x1, z1)).map (fun p => f p.1 p.2)
      = (intRange x0 x1).flatMap (fun x => (intRange z0 z1).map (fun z => f x z)) := by
    simp [rangePairs, List.map_flatMap, List.map_map, Function.comp_def]
  have hg : ∀ x, ((intRange z0 z1).map (fun z => f x z)).length = (z1 - z0).toNat := by
    intro x; rw [List.length_map, intRange_length]
  have hlen : ((rangePairs (x0, z0) (x1, z1)).map (fun p => f p.1 p.2)).length
      = (x1 - x0).toNat * (z1 - z0).toNat := by
    rw [hmap, List.length_flatMap]
    have hs := sum_map_const_length (intRange x0 x1)
      (fun x => (intRange z0 z1).map (fun z => f x z)) (z1 - z0).toNat hg
    rw [intRange_length] at hs
    simp only [Function.comp_def]
    exact hs
  refine ⟨(rangePairs (x0, z0) (x1, z1)).map (fun p => f p.1 p.2), ?_, hlen, ?_, ?_⟩
  · unfold Database.get_chunk_range
    rw [getChunkRangeLoop_ok db d f hf]
    simp
  · intro hx hz
    have h1 : (((x1 - x0).toNat : Int)) = x1 - x0 := Int.toNat_of_nonneg (by omega)
    have h2 : (((z1 - z0).toNat : Int)) = z1 - z0 := Int.toNat_of_nonneg (by omega)
    rw [hlen, Nat.cast_mul, h1, h2]
  · intro i j hi hj
    rw [hmap]
    rw [flatMap_row_major_getD _ _ hg none (intRange x0 x1) i j
      (by rw [intRange_length]; exact hi) hj]
    rw [intRange_getD _ _ _ hi]
    unfold intRange
    rw [List.map_map, List.getD_eq_getElem?_getD, List.getElem?_map,
      List.getElem?_range hj]
    rfl

/-- C4 (witness): the amended range law evaluated on the empty store
over the unit square. -/
theorem get_chunk_range_row_major_witness :
    (∀ x z : Int, Database.get_chunk emptyDb x z "overworld" = some (.ok none))
  ∧ ∃ l, Database.get_chunk_range emptyDb (0, 0) (1, 1) "overworld" = some (.ok l)
      ∧ l.length = ((1 : Int) - 0).toNat * ((1 : Int) - 0).toNat
      ∧ ((0 : Int) ≤ 1 → (0 : Int) ≤ 1
          → (l.length : Int) = ((1 : Int) - 0) * ((1 : Int) - 0))
      ∧ ∀ i j, i < ((1 : Int) - 0).toNat → j < ((1 : Int) - 0).toNat →
          l.getD (i * ((1 : Int) - 0).toNat + j) none = none :=
  ⟨fun _ _ => rfl,
    get_chunk_range_row_major emptyDb "overworld" 0 0 1 1 (fun _ _ => none)
      (fun _ _ => rfl)⟩

/-! ## Keep-alive system (`src/net/systems/keep_alive_system.rs`) -/

/-- `KeepAlive` component: counter and the `Instant` of the last send,
modelled as a second timestamp. -/
structure KeepAlive where
  data : Nat
  last_sent : Nat
deriving DecidableEq, Repr, Inhabited

/-- `Player` component (only its username is read by the sender). -/
structure Player where
  username : String
deriving DecidableEq, Repr, Inhabited

/-- Modelled from the spec: `KeepAlivePacketOut`
(`src/net/packets/outgoing/keep_alive.rs` is not among the sources) is
the outgoing keep-alive packet "carrying that integer". -/
structure KeepAlivePacketOut where
  data : Nat
deriving DecidableEq, Repr, Inhabited

def KeepAlivePacketOut.new_auto (data : Nat) : KeepAlivePacketOut := ⟨data⟩

/-- One row of the sender's exclusive query
`(Player, KeepAlive, ConnectionWrapper)`; the connection handle is
identified by its id. -/
abbrev SenderRow := Player × KeepAlive × Nat

/-- `KeepAliveSystem::sender` (`keep_alive_system.rs` lines 29-60), the
query phase of one 15 s pass at time `now`: under the exclusive query
each row's `data` is incremented and `last_sent` set to `now`. -/
def senderPassUpdate (now : Nat) (rows : List SenderRow) : List SenderRow :=
  rows.map (fun r => (r.1, ⟨r.2.1.data + 1, now⟩, r.2.2))

/-- The triples `(username, data, conn)` collected by the same
iteration, still under the query, before any network write. -/
def senderPassCollect (rows : List SenderRow) : List (String × Nat × Nat) :=
  rows.map (fun r => (r.1.username, r.2.1.data + 1, r.2.2))

/-- The send phase: one `KeepAlivePacketOut::new_auto(data)` per
collected triple, after the query is released. -/
def senderPassPackets (rows : List SenderRow) : List KeepAlivePacketOut :=
  (senderPassCollect rows).map (fun t => KeepAlivePacketOut.new_auto t.2.1)

/-- C6: in one sender pass, each entity's `data` increases by exactly
one, `last_sent` does not decrease (given the clock reads at least the
previous `last_sent`), and the packet for the `i`-th entity carries
exactly that entity's incremented counter, paired with that entity's
connection: increment and collection happen under the exclusive query
before any network I/O. -/
theorem keep_alive_sender_monotone (now : Nat) (rows : List SenderRow)
    (i : Nat) (h : i < rows.length) :
    ((senderPassUpdate now rows).getD i default).2.1.data
        = (rows.getD i default).2.1.data + 1
  ∧ ((rows.getD i default).2.1.last_sent ≤ now →
      (rows.getD i default).2.1.last_sent
        ≤ ((senderPassUpdate now rows).getD i default).2.1.last_sent)
  ∧ (senderPassPackets rows).getD i default
      = KeepAlivePacketOut.new_auto ((rows.getD i default).2.1.data + 1)
  ∧ ((senderPassCollect rows).getD i default).2.2
      = (rows.getD i default).2.2 := by
  have hr : rows[i]? = some rows[i] := List.getElem?_eq_getElem h
  refine ⟨?_, ?_, ?_, ?_⟩ <;>
    simp [senderPassUpdate, senderPassPackets, senderPassCollect,
      KeepAlivePacketOut.new_auto, List.getD_eq_getElem?_getD,
      List.getElem?_map, hr]

/-- C6 (witness): the sender pass on one concrete row. -/
theorem keep_alive_sender_monotone_witness :
    (0 : Nat) < [((⟨"alice"⟩ : Player), (⟨3, 10⟩ : KeepAlive), 7)].length
  ∧ (((senderPassUpdate 42 [(⟨"alice"⟩, ⟨3, 10⟩, 7)]).getD 0 default).2.1.data
        = (([((⟨"alice"⟩ : Player), (⟨3, 10⟩ : KeepAlive), 7)]).getD 0 default).2.1.data + 1
    ∧ ((([((⟨"alice"⟩ : Player), (⟨3, 10⟩ : KeepAlive), 7)]).getD 0 default).2.1.last_sent ≤ 42 →
        (([((⟨"alice"⟩ : Player), (⟨3, 10⟩ : KeepAlive), 7)]).getD 0 default).2.1.last_sent
          ≤ ((senderPassUpdate 42 [(⟨"alice"⟩, ⟨3, 10⟩, 7)]).getD 0 default).2.1.last_sent)
    ∧ (senderPassPackets [(⟨"alice"⟩, ⟨3, 10⟩, 7)]).getD 0 default
        = KeepAlivePacketOut.new_auto
            ((([((⟨"alice"⟩ : Player), (⟨3, 10⟩ : KeepAlive), 7)]).getD 0 default).2.1.data + 1)
    ∧ ((senderPassCollect [(⟨"alice"⟩, ⟨3, 10⟩, 7)]).getD 0 default).2.2
        = (([((⟨"alice"⟩ : Player), (⟨3, 10⟩ : KeepAlive), 7)]).getD 0 default).2.2) :=
  ⟨by decide,
    keep_alive_sender_monotone 42 [(⟨"alice"⟩, ⟨3, 10⟩, 7)] 0 (by decide)⟩

/-! ## Claim C7: keep-alive reaper -/

/-- One row of the reaper's shared query `(KeepAlive, ConnectionWrapper)`;
the connection handle is identified by its id. -/
abbrev ReaperRow := KeepAlive × Nat

/-- `KeepAliveSystem::receiver` (`keep_alive_system.rs` lines 61-98),
collection phase of one 5 s pass at time `now` (seconds): under the
shared query, collect the connections with
`last_sent.elapsed().as_secs() > 30` (`Instant::elapsed` saturates at
zero, as does `Nat` subtraction). -/
def reaperCollect (now : Nat) (rows : List ReaperRow) : List Nat :=
  rows.filterMap
    (fun r => if 30 < now - r.1.last_sent then some r.2 else none)

/-- One iteration of the reaper's teardown loop over a collected
connection `c`: attempt `drop_conn` (a failure is only logged), then
`world.delete_entity` on the connection's entity (a failure is only
logged).  `connEntity` reads `conn.metadata.entity`; `dropResult` is the
outcome of the external `drop_conn`. -/
def reaperStep (connEntity : Nat → Entity)
    (dropResult : Nat → Except String Unit)
    (acc : World × List String × List Nat) (c : Nat) :
    World × List String × List Nat :=
  let logs1 :=
    match dropResult c with
    | .ok _ => acc.2.1
    | .error e => acc.2.1.concat e
  let r := acc.1.delete_entity (connEntity c)
  let logs2 :=
    match r.1 with
    | .ok _ => logs1
    | .error _ => logs1.concat "failed to delete entity"
  (r.2, logs2, acc.2.2.concat c)

/-- The reaper's teardown loop over all collected connections: the
world, the accumulated log lines, and the connections processed. -/
def reaperProcess (world : World) (conns : List Nat)
    (connEntity : Nat → Entity) (dropResult : Nat → Except String Unit) :
    World × List String × List Nat :=
  conns.foldl (reaperStep connEntity dropResult) (world, [], [])

theorem reaperProcess_go (connEntity : Nat → Entity)
    (dropResult : Nat → Except String Unit) :
    ∀ (conns : List Nat) (world : World) (logs : List String)
      (processed : List Nat),
      (conns.foldl (reaperStep connEntity dropResult)
          (world, logs, processed)).2.2 = processed ++ conns
    ∧ (conns.foldl (reaperStep connEntity dropResult)
          (world, logs, processed)).1
        = conns.foldl (fun w c => (w.delete_entity (connEntity c)).2) world := by
  intro conns
  induction conns with
  | nil => intro world logs processed; simp
  | cons c conns ih =>
      intro world logs processed
      have h := ih (world.delete_entity (connEntity c)).2
        (match (world.delete_entity (connEntity c)).1 with
         | .ok _ =>
            match dropResult c with
            | .ok _ => logs
            | .error e => logs.concat e
         | .error _ =>
            (match dropResult c with
             | .ok _ => logs
             | .error e => logs.concat e).concat "failed to delete entity")
        (processed.concat c)
      constructor
      · rw [List.foldl_cons]
        show ((conns.foldl (reaperStep connEntity dropResult)
            ((world.delete_entity (connEntity c)).2, _, processed.concat c))).2.2
          = processed ++ c :: conns
        rw [h.1]
        simp
      · rw [List.foldl_cons, List.foldl_cons]
        show ((conns.foldl (reaperStep connEntity dropResult)
            ((world.delete_entity (connEntity c)).2, _, processed.concat c))).1
          = conns.foldl (fun w c => (w.delete_entity (connEntity c)).2)
              (world.delete_entity (connEntity c)).2
        rw [h.2]

/-- C7: one reaper pass collects exactly the connections whose
keep-alive elapsed time exceeds 30 s, attempts the drop and the entity
deletion for *every* collected connection in order — regardless of which
drops or deletions fail (failures only append a log line) — and the
resulting world is the fold of `delete_entity` over all collected
connections. -/
theorem keep_alive_reaper (world : World) (now : Nat)
    (rows : List ReaperRow) (connEntity : Nat → Entity)
    (dropResult : Nat → Except String Unit) :
    (∀ c, c ∈ reaperCollect now rows
        ↔ ∃ r ∈ rows, 30 < now - r.1.last_sent ∧ r.2 = c)
  ∧ (reaperProcess world (reaperCollect now rows) connEntity dropResult).2.2
      = reaperCollect now rows
  ∧ (reaperProcess world (reaperCollect now rows) connEntity dropResult).1
      = (reaperCollect now rows).foldl
          (fun w c => (w.delete_entity (connEntity c)).2) world := by
  refine ⟨?_, ?_, ?_⟩
  · intro c
    simp only [reaperCollect, List.mem_filterMap]
    constructor
    · rintro ⟨r, hr, hif⟩
      by_cases hc : 30 < now - r.1.last_sent
      · rw [if_pos hc] at hif
        exact ⟨r, hr, hc, Option.some.inj hif⟩
      · rw [if_neg hc] at hif
        exact absurd hif (Option.noConfusion)
    · rintro ⟨r, hr, hc, hrc⟩
      exact ⟨r, hr, by rw [if_pos hc, hrc]⟩
  · have h := reaperProcess_go connEntity dropResult (reaperCollect now rows)
      world [] []
    simpa [reaperProcess] using h.1
  · have h := reaperProcess_go connEntity dropResult (reaperCollect now rows)
      world [] []
    simpa [reaperProcess] using h.2

/-! ## Status handler (`src/net/packets/incoming/status.rs`) -/

/-- The configuration fields the status handler reads
(`config.max_players`, `config.motd`). -/
structure ServerConfig where
  max_players : Nat
  motd : String
deriving DecidableEq, Repr

/-- `Version` of the JSON response (`status.rs` lines 34-38). -/
structure Version where
  name : String
  protocol : Nat
deriving DecidableEq, Repr

/-- `Sample` entry of the player sample (`status.rs` lines 47-51). -/
structure Sample where
  name : String
  id : String
deriving DecidableEq, Repr

/-- `Players` of the JSON response (`status.rs` lines 40-45). -/
structure Players where
  max : Nat
  online : Nat
  sample : List Sample
deriving DecidableEq, Repr

/-- `Description` of the JSON response (`status.rs` lines 53-56). -/
structure Description where
  text : String
deriving DecidableEq, Repr

/-- `JsonResponse` (`status.rs` lines 26-32): the record serialized to
the JSON body of the status response. -/
structure JsonResponse where
  version : Version
  players : Players
  description : Description
  favicon : String
deriving DecidableEq, Repr

/-- The single outgoing packet built by `Status::handle`: packet id 0x00
and the JSON body (kept as the record it is serialized from). -/
structure OutgoingStatusResponse where
  packet_id : Nat
  json_response : JsonResponse
deriving DecidableEq, Repr

/-- `Status::handle` (`status.rs` lines 58-103) as the pure construction
of the one response it writes, from the global config, the protocol
version stored in the connection's metadata at handshake, and the cached
favicon string. -/
def Status.handle (config : ServerConfig) (protocol_version : Nat)
    (favicon : String) : OutgoingStatusResponse :=
  { packet_id := 0x00
    json_response :=
      { version := { name := "1.20.6", protocol := protocol_version }
        players :=
          { max := config.max_players
            online := 2
            sample :=
              [{ name := "Recore_"
                 id := "2b3414ed-468a-45c2-b113-6c5f47430edc" },
               { name := "sweattypalms"
                 id := "26d88d10-f052-430f-9406-e6c3089792c4" }] }
        description := { text := config.motd }
        favicon := favicon } }

/-- C8: for every status request, the one `StatusResponse` (packet id
0x00) carries a JSON body with `version.name = "1.20.6"`,
`version.protocol` equal to the client's handshake protocol version,
`players.max = config.max_players` and `description.text =
config.motd`. -/
theorem status_response_fields (config : ServerConfig)
    (protocol_version : Nat) (favicon : String) :
    (Status.handle config protocol_version favicon).packet_id = 0
  ∧ (Status.handle config protocol_version favicon).json_response.version.name
      = "1.20.6"
  ∧ (Status.handle config protocol_version favicon).json_response.version.protocol
      = protocol_version
  ∧ (Status.handle config protocol_version favicon).json_response.players.max
      = config.max_players
  ∧ (Status.handle config protocol_version favicon).json_response.description.text
      = config.motd :=
  ⟨rfl, rfl, rfl, rfl, rfl⟩

/-- C9: `players.online` is the constant 2 and `players.sample` the
fixed two-entry list, for every configuration, protocol version and
favicon — independent of any server state. -/
theorem status_response_fixed_players (config : ServerConfig)
    (protocol_version : Nat) (favicon : String) :
    (Status.handle config protocol_version favicon).json_response.players.online
        = 2
  ∧ (Status.handle config protocol_version favicon).json_response.players.sample
      = [⟨"Recore_", "2b3414ed-468a-45c2-b113-6c5f47430edc"⟩,
         ⟨"sweattypalms", "26d88d10-f052-430f-9406-e6c3089792c4"⟩] :=
  ⟨rfl, rfl⟩
